import Mathlib

/-!
Verification of the pattern-cascade redaction engine of the clinical-notes
scrubber (src/scrubber.rs, src/config.rs, src/main.rs).

Text is modelled as a list of Unicode scalar values (Nat codepoints).  The
compiled patterns of the regex crate are modelled by a small backtracking
matcher with the leftmost-first preference semantics the regex crate
documents: alternations prefer the earlier branch, repetitions are greedy,
and the leftmost successful start position wins.  Unbounded repetition in
the source patterns only ever applies to single-character classes, so the
matcher needs a star over character predicates only; bounded repetitions
are expanded into nested optionals, which is equivalent under greedy
backtracking.

Character classes that the regex crate interprets over all of Unicode
(word characters, letters) are modelled over the ASCII range: every string
that the concrete theorems below evaluate is ASCII except for the
typographic apostrophe (8217) and the degree sign (176), on which the
modelled classes agree with the real ones (both are neither letters nor
word characters).
-/

/-- Decimal digit, regex class d. -/
def isDigitC (c : Nat) : Bool := 48 ≤ c && c ≤ 57

/-- ASCII uppercase letter. -/
def isUpperC (c : Nat) : Bool := 65 ≤ c && c ≤ 90

/-- ASCII lowercase letter. -/
def isLowerC (c : Nat) : Bool := 97 ≤ c && c ≤ 122

/-- ASCII letter (the model of the letter classes, see the header note). -/
def isAlphaC (c : Nat) : Bool := isUpperC c || isLowerC c

/-- ASCII alphanumeric. -/
def isAlnumC (c : Nat) : Bool := isAlphaC c || isDigitC c

/-- Unicode White_Space, the set matched by the regex class s and by the
trim method of Rust strings. -/
def isWsC (c : Nat) : Bool :=
  (9 ≤ c && c ≤ 13) || c == 32 || c == 133 || c == 160 || c == 5760 ||
  (8192 ≤ c && c ≤ 8202) || c == 8232 || c == 8233 || c == 8239 ||
  c == 8287 || c == 12288

/-- Word character, regex class w (ASCII model: alphanumerics and the
underscore). -/
def isWordC (c : Nat) : Bool := isAlnumC c || c == 95

/-- ASCII lowercase folding, the model of case-insensitive matching. -/
def foldLower (c : Nat) : Nat := if 65 ≤ c && c ≤ 90 then c + 32 else c

/-- ASCII uppercase folding, the model of Rust to_uppercase on the
characters that occur in person candidates. -/
def foldUpper (c : Nat) : Nat := if 97 ≤ c && c ≤ 122 then c - 32 else c

/-- Regular expressions over codepoint lists.  Unbounded repetition (star)
is restricted to one-character classes, which covers every pattern of the
source (see the header note). -/
inductive Re where
  | eps : Re
  | ch (p : Nat → Bool) : Re
  | seq (a b : Re) : Re
  | alt (a b : Re) : Re
  | star (p : Nat → Bool) : Re
  | bnd : Re

/-- Word-boundary test of the regex crate: exactly one of the previous and
the next character is a word character (a missing character counts as
non-word). -/
def atBoundary (prev : Option Nat) (s : List Nat) : Bool :=
  let l := match prev with | some c => isWordC c | none => false
  let r := match s with | c :: _ => isWordC c | [] => false
  l != r

/-- Greedy backtracking star over a character class: consume as many
class characters as possible, giving back one at a time when the
continuation fails. -/
def starRun (p : Nat → Bool) (prev : Option Nat) (s : List Nat)
    (k : Option Nat → List Nat → Option (List Nat)) : Option (List Nat) :=
  match s with
  | [] => k prev []
  | c :: rest =>
    if p c then
      match starRun p (some c) rest k with
      | some r => some r
      | none => k prev (c :: rest)
    else k prev (c :: rest)

/-- Backtracking matcher in continuation style.  The continuation receives
the last consumed character (for word-boundary tests) and the remaining
input; the first success in preference order is returned, which is the
leftmost-first semantics of the regex crate at a fixed start position. -/
def Re.run (r : Re) (prev : Option Nat) (s : List Nat)
    (k : Option Nat → List Nat → Option (List Nat)) : Option (List Nat) :=
  match r with
  | .eps => k prev s
  | .ch p =>
    match s with
    | [] => none
    | c :: rest => if p c then k (some c) rest else none
  | .seq a b => a.run prev s (fun p2 s2 => b.run p2 s2 k)
  | .alt a b =>
    match a.run prev s k with
    | some res => some res
    | none => b.run prev s k
  | .star p => starRun p prev s k
  | .bnd => if atBoundary prev s then k prev s else none

/-- Greedy option. -/
def Re.opt (r : Re) : Re := .alt r .eps

/-- n mandatory copies in sequence. -/
def Re.reps : Nat → Re → Re
  | 0, _ => .eps
  | n + 1, r => .seq r (Re.reps n r)

/-- Up to n optional copies, greedy (the expansion of a bounded counted
repetition). -/
def Re.optsUpTo : Nat → Re → Re
  | 0, _ => .eps
  | n + 1, r => .alt (.seq r (Re.optsUpTo n r)) .eps

/-- Counted repetition with m to n copies, greedy. -/
def Re.repRange (m n : Nat) (r : Re) : Re := .seq (Re.reps m r) (Re.optsUpTo (n - m) r)

/-- One or more characters of a class, greedy. -/
def Re.plus (p : Nat → Bool) : Re := .seq (.ch p) (.star p)

/-- Case-sensitive literal. -/
def Re.lit (cs : List Nat) : Re :=
  cs.foldr (fun c acc => .seq (.ch (fun x => x == c)) acc) .eps

/-- Case-insensitive literal (ASCII folding). -/
def Re.litci (cs : List Nat) : Re :=
  cs.foldr (fun c acc => .seq (.ch (fun x => foldLower x == foldLower c)) acc) .eps

/-- Alternation of a list of branches in order; an empty list never
matches. -/
def Re.altList : List Re → Re
  | [] => .ch (fun _ => false)
  | [r] => r
  | r :: rs => .alt r (Re.altList rs)

/-- Try to match r at the start of s; on success return the remaining
suffix after the match (the first match in preference order). -/
def Re.firstMatch (r : Re) (prev : Option Nat) (s : List Nat) : Option (List Nat) :=
  r.run prev s (fun _ rest => some rest)

/-- One step of replace_all: scan left to right for non-overlapping
matches; each accepted match is replaced by tok and counted, a match
rejected by keep is written back unchanged and not counted, and scanning
resumes after the match either way (find_iter semantics of the regex
crate).  The fuel starts at one more than the input length; every
recursive call drops at least one input character, so it never runs
out. -/
def scanRep (r : Re) (tok : List Nat) (keep : List Nat → Bool) :
    Nat → Option Nat → List Nat → List Nat × Nat
  | 0, _, s => (s, 0)
  | fuel + 1, prev, s =>
    match Re.firstMatch r prev s with
    | some rest =>
      let n := s.length - rest.length
      if n == 0 then
        match s with
        | [] => (tok, 1)
        | c :: s2 =>
          let t := scanRep r tok keep fuel (some c) s2
          (tok ++ c :: t.1, t.2 + 1)
      else
        let matched := s.take n
        let t := scanRep r tok keep fuel matched.getLast? rest
        if keep matched then (tok ++ t.1, t.2 + 1) else (matched ++ t.1, t.2)
    | none =>
      match s with
      | [] => ([], 0)
      | c :: s2 =>
        let t := scanRep r tok keep fuel (some c) s2
        (c :: t.1, t.2)

/-- Model of replace_all of scrubber.rs: replace every match of the
pattern by the replacement token, returning the new text and the match
count. -/
def replace_all (r : Re) (input : List Nat) (replacement : List Nat) : List Nat × Nat :=
  scanRep r replacement (fun _ => true) (input.length + 1) none input

/-- Model of replace_all_filtered of scrubber.rs: as replace_all, but a
match is only replaced and counted when should_replace accepts the matched
text; a rejected match is left unchanged. -/
def replace_all_filtered (r : Re) (input : List Nat) (replacement : List Nat)
    (should_replace : List Nat → Bool) : List Nat × Nat :=
  scanRep r replacement should_replace (input.length + 1) none input

/-- Codepoints of a Lean string literal (used to write the ASCII test
texts and term lists). -/
def str (s : String) : List Nat := s.data.map Char.toNat

/-! ## Placeholder tokens and built-in term lists (scrubber.rs lines 12-70) -/

def EMAIL_TOKEN : List Nat := str "[EMAIL]"
def PHONE_TOKEN : List Nat := str "[PHONE]"
def DATE_TOKEN : List Nat := str "[DATE]"
def REL_DATE_TOKEN : List Nat := str "[REL_DATE]"
def SSN_TOKEN : List Nat := str "[SSN]"
def MRN_TOKEN : List Nat := str "[MRN]"
def ADDRESS_TOKEN : List Nat := str "[ADDRESS]"
def PERSON_TOKEN : List Nat := str "[PERSON]"
def FACILITY_TOKEN : List Nat := str "[FACILITY]"
def ZIP_TOKEN : List Nat := str "[ZIP]"
def COORD_TOKEN : List Nat := str "[COORD]"

/-- DEFAULT_NAMES of scrubber.rs, in source order (Sanchez appears twice
there and is kept twice here; the dictionary builder deduplicates). -/
def DEFAULT_NAMES : List (List Nat) :=
  [str "Smith", str "Johnson", str "Williams", str "Brown", str "Jones",
   str "Garcia", str "Miller", str "Davis", str "Rodriguez", str "Martinez",
   str "Hernandez", str "Lopez", str "Gonzalez", str "Wilson", str "Anderson",
   str "Thomas", str "Taylor", str "Moore", str "Jackson", str "Martin",
   str "Lee", str "Perez", str "Thompson", str "White", str "Harris",
   str "Sanchez", str "Clark", str "Ramirez", str "Lewis", str "Robinson",
   str "Walker", str "Young", str "Allen", str "King", str "Wright",
   str "Scott", str "Torres", str "Nguyen", str "Hill", str "Flores",
   str "Green", str "Adams", str "Nelson", str "Baker", str "Hall",
   str "Rivera", str "Campbell", str "Mitchell", str "Carter", str "Roberts",
   str "Gomez", str "Phillips", str "Turner", str "Parker", str "Evans",
   str "Edwards", str "Collins", str "Stewart", str "Sanchez", str "Morris",
   str "Murphy", str "Cook", str "Rogers", str "Morgan", str "Patel",
   str "Singh", str "Khan", str "Ali", str "Mohammed", str "Mohammad",
   str "Abdullah", str "Hussain", str "Kim", str "Park", str "Chen",
   str "Wang", str "Zhang", str "Lin", str "Tran", str "Ng",
   str "Chaudhry", str "Ahmad", str "Iqbal", str "Rahman"]

/-- COMMON_FIRST_NAMES of scrubber.rs, in source order. -/
def COMMON_FIRST_NAMES : List (List Nat) :=
  [str "James", str "Mary", str "Robert", str "Patricia", str "John",
   str "Jennifer", str "Michael", str "Linda", str "William", str "Elizabeth",
   str "David", str "Barbara", str "Richard", str "Susan", str "Joseph",
   str "Jessica", str "Thomas", str "Sarah", str "Charles", str "Karen",
   str "Christopher", str "Nancy", str "Daniel", str "Lisa", str "Matthew",
   str "Betty", str "Anthony", str "Margaret", str "Mark", str "Sandra",
   str "Donald", str "Ashley", str "Steven", str "Kimberly", str "Paul",
   str "Emily", str "Andrew", str "Donna", str "Joshua", str "Michelle",
   str "Kenneth", str "Dorothy", str "Kevin", str "Carol", str "Brian",
   str "Amanda", str "George", str "Melissa", str "Timothy", str "Deborah",
   str "Ronald", str "Stephanie", str "Edward", str "Rebecca", str "Jason",
   str "Sharon", str "Jeffrey", str "Laura", str "Ryan", str "Cynthia",
   str "Jacob", str "Kathleen", str "Gary", str "Amy", str "Nicholas",
   str "Shirley", str "Eric", str "Angela", str "Jonathan", str "Helen",
   str "Stephen", str "Anna", str "Larry", str "Brenda", str "Justin",
   str "Pamela", str "Scott", str "Nicole", str "Brandon", str "Samantha",
   str "Frank", str "Katherine", str "Benjamin", str "Emma", str "Gregory",
   str "Ruth", str "Samuel", str "Christine", str "Patrick", str "Catherine",
   str "Alexander", str "Debra", str "Jack", str "Rachel", str "Dennis",
   str "Carolyn", str "Jerry", str "Janet", str "Tyler", str "Maria",
   str "Mohammed", str "Muhammad", str "Ahmed", str "Ahmad", str "Omar",
   str "Hassan", str "Hussein", str "Abdullah", str "Fatima", str "Aisha",
   str "Amelia", str "Priya", str "Anjali", str "Sofia", str "Noor",
   str "Amina", str "Li", str "Wei", str "Min", str "Hao",
   str "Jin", str "Sang", str "Hye", str "Yuki", str "Mei",
   str "Ravi", str "Imran", str "Farah", str "Leila", str "Zara"]

/-- DEFAULT_FACILITY_TERMS of scrubber.rs; 39 is the plain apostrophe of
the Childrens Hospital entry. -/
def DEFAULT_FACILITY_TERMS : List (List Nat) :=
  [str "General Hospital", str "Medical Center",
   str "Children" ++ [39] ++ str "s Hospital", str "Urgent Care",
   str "Cardiology Clinic", str "Dialysis Center", str "Health System",
   str "Cancer Institute", str "Family Practice", str "Primary Care",
   str "Internal Medicine"]

/-- NAME_STOPLIST of scrubber.rs; 46 is the dot of the second E COLI
entry. -/
def NAME_STOPLIST : List (List Nat) :=
  [str "CKD", str "ESBL", str "ICU", str "BKA", str "IDDM", str "MRSA",
   str "ASTHMA", str "DIALYSIS", str "MEROPENEM", str "SEPSIS",
   str "HYPERTENSION", str "DIABETES", str "E COLI",
   str "E" ++ [46] ++ str " COLI", str "HGB", str "HCT", str "POC", str "IV"]

/-! ## The built-in compiled patterns (Scrubber::new, scrubber.rs 134-199) -/

/-- Sequence of a list of regexes. -/
def Re.cat (l : List Re) : Re := l.foldr .seq .eps

/-- One character, compared case-insensitively. -/
def Re.chci (c : Nat) : Re := .ch (fun x => foldLower x == foldLower c)

/-- Phone separator class: dash, dot, whitespace, bullet (8226),
interpunct (183). -/
def isPhoneSepC (c : Nat) : Bool := c == 45 || c == 46 || c == 8226 || c == 183 || isWsC c

/-- Email local part class (word chars, dot, plus, percent, hyphen). -/
def isEmailLocalC (c : Nat) : Bool := isWordC c || c == 46 || c == 43 || c == 37 || c == 45

/-- Email domain class (alphanumerics, dot, hyphen). -/
def isEmailDomC (c : Nat) : Bool := isAlnumC c || c == 46 || c == 45

/-- Facility word class: letters, digits, typographic apostrophe (8217),
plain apostrophe, dot, hyphen (marks and non-ASCII letters are outside
the modelled fragment). -/
def isFacWordC (c : Nat) : Bool :=
  isAlnumC c || c == 8217 || c == 39 || c == 46 || c == 45

/-- Person-name word class of the titled and first-last patterns:
letters, typographic apostrophe, plain apostrophe, hyphen. -/
def isNameC (c : Nat) : Bool := isAlphaC c || c == 8217 || c == 39 || c == 45

/-- Word class of the capital-sequence pattern: letters and the two
apostrophes (no hyphen there). -/
def isCapSeqC (c : Nat) : Bool := isAlphaC c || c == 8217 || c == 39

/-- Address word class (word chars, dot, hyphen). -/
def isAddrWordC (c : Nat) : Bool := isWordC c || c == 46 || c == 45

/-- Identifier tail class of the labelled MRN pattern (alphanumerics and
hyphen). -/
def isAlnumHyphC (c : Nat) : Bool := isAlnumC c || c == 45

/-- email_regex (case-insensitive; its explicit classes are caseless). -/
def emailRe : Re :=
  Re.cat [.bnd, Re.plus isEmailLocalC, .ch (fun c => c == 64),
          Re.plus isEmailDomC, .ch (fun c => c == 46),
          .ch isAlphaC, .ch isAlphaC, .star isAlphaC, .bnd]

/-- phone_regex. -/
def phoneRe : Re :=
  Re.cat [.bnd,
          Re.opt (Re.cat [Re.opt (.ch (fun c => c == 43)), .ch (fun c => c == 49),
                          Re.opt (.ch isPhoneSepC)]),
          .alt (Re.cat [Re.opt (.ch (fun c => c == 40)), Re.reps 3 (.ch isDigitC),
                        Re.opt (.ch (fun c => c == 41))])
               (Re.reps 3 (.ch isDigitC)),
          Re.opt (.ch isPhoneSepC),
          Re.reps 3 (.ch isDigitC),
          Re.opt (.ch isPhoneSepC),
          Re.reps 4 (.ch isDigitC),
          Re.opt (Re.cat [.star isWsC,
                          Re.altList [Re.litci (str "x"),
                                      Re.cat [Re.litci (str "ext"), Re.opt (.ch (fun c => c == 46))],
                                      Re.litci (str "extension")],
                          .star isWsC, Re.repRange 1 6 (.ch isDigitC)]),
          .bnd]

/-- ssn_regex (case-sensitive: the masked form is lowercase x only). -/
def ssnRe : Re :=
  Re.cat [.bnd,
          .alt (Re.cat [Re.reps 3 (.ch isDigitC), .ch (fun c => c == 45),
                        Re.reps 2 (.ch isDigitC), .ch (fun c => c == 45),
                        Re.reps 4 (.ch isDigitC)])
               (Re.cat [Re.lit (str "xxx-xx-"), Re.reps 4 (.ch isDigitC)]),
          .bnd]

/-- mrn_regex for the configured digit-run bounds. -/
def mrnRe (mrnMin mrnMax : Nat) : Re :=
  Re.cat [.bnd, Re.repRange mrnMin mrnMax (.ch isDigitC), .bnd]

/-- mrn_label_regex. -/
def mrnLabelRe : Re :=
  Re.cat [.bnd,
          Re.altList [Re.litci (str "MRN"), Re.litci (str "Acct"), Re.litci (str "Account"),
                      Re.cat [Re.litci (str "Patient"), .star isWsC, Re.litci (str "ID")],
                      Re.litci (str "Chart")],
          .star isWsC, Re.opt (.ch (fun c => c == 58 || c == 35)),
          .star isWsC, Re.opt (.ch (fun c => c == 45)), .star isWsC,
          Re.reps 4 (.ch isAlnumHyphC), .star isAlnumHyphC, .bnd]

/-- zip_regex. -/
def zipRe : Re :=
  Re.cat [.bnd, Re.reps 5 (.ch isDigitC),
          Re.opt (Re.cat [.ch (fun c => c == 45), Re.reps 4 (.ch isDigitC)]), .bnd]

/-- facility_regex (case-insensitive, so its capital-letter class matches
any ASCII letter). -/
def facilityRe : Re :=
  Re.cat [.bnd,
          Re.altList [Re.litci (str "St."), Re.litci (str "Saint"),
                      Re.litci (str "Mt."), Re.litci (str "Mount"),
                      Re.litci (str "Univ."), Re.litci (str "University"),
                      Re.litci (str "Memorial"),
                      Re.cat [Re.litci (str "Children"), Re.opt (.ch (fun c => c == 39)),
                              Re.litci (str "s")],
                      Re.litci (str "General"), Re.litci (str "County")],
          Re.plus isWsC,
          .ch isAlphaC, Re.plus isFacWordC,
          Re.optsUpTo 4 (Re.cat [Re.plus isWsC, .ch isAlphaC, Re.plus isFacWordC]),
          Re.opt (Re.cat [Re.plus isWsC,
                          Re.altList [Re.litci (str "Hospital"),
                                      Re.cat [Re.litci (str "Med"), Re.opt (Re.litci (str "ical")),
                                              .star isWsC, Re.litci (str "Center")],
                                      Re.litci (str "Clinic"),
                                      Re.cat [Re.litci (str "Health"), Re.opt (Re.litci (str "care"))],
                                      Re.litci (str "Infirmary")]]),
          .bnd]

/-- address_regex. -/
def addressRe : Re :=
  Re.cat [.bnd, Re.repRange 1 6 (.ch isDigitC), Re.plus isWsC,
          Re.cat [.ch isAlphaC, .star isAddrWordC, Re.plus isWsC],
          Re.optsUpTo 4 (Re.cat [.ch isAlphaC, .star isAddrWordC, Re.plus isWsC]),
          Re.altList [Re.litci (str "St."), Re.litci (str "Street"),
                      Re.cat [Re.litci (str "Ave"), Re.opt (Re.litci (str "nue"))],
                      Re.cat [Re.litci (str "Rd"), Re.opt (.ch (fun c => c == 46))],
                      Re.litci (str "Road"),
                      Re.cat [Re.litci (str "Dr"), Re.opt (.ch (fun c => c == 46))],
                      Re.litci (str "Drive"),
                      Re.cat [Re.litci (str "Blvd"), Re.opt (.ch (fun c => c == 46))],
                      Re.litci (str "Boulevard"),
                      Re.cat [Re.litci (str "Ln"), Re.opt (.ch (fun c => c == 46))],
                      Re.litci (str "Lane"),
                      Re.cat [Re.litci (str "Ct"), Re.opt (.ch (fun c => c == 46))],
                      Re.litci (str "Court"),
                      Re.cat [Re.litci (str "Pl"), Re.opt (.ch (fun c => c == 46))],
                      Re.litci (str "Place"),
                      Re.cat [Re.litci (str "Ter"), Re.opt (Re.litci (str "race"))],
                      Re.litci (str "Way")],
          .bnd,
          Re.opt (Re.cat [.star isWsC,
                          Re.altList [Re.litci (str "Apt"), Re.litci (str "Unit"),
                                      Re.lit (str "#")],
                          .star isWsC, Re.plus isWordC])]

/-- coordinate_regex; 176 is the degree sign, 186 the masculine ordinal
used as an alternative degree mark. -/
def coordinateRe : Re :=
  Re.cat [.bnd, Re.opt (.ch (fun c => c == 45)),
          Re.repRange 1 3 (.ch isDigitC), .ch (fun c => c == 46), Re.plus isDigitC,
          .star isWsC, Re.opt (.ch (fun c => c == 176 || c == 186)), .star isWsC,
          .ch (fun c => foldLower c == 110 || foldLower c == 115), .bnd,
          .star (fun c => c == 44 || isWsC c),
          Re.opt (.ch (fun c => c == 45)),
          Re.repRange 1 3 (.ch isDigitC), .ch (fun c => c == 46), Re.plus isDigitC,
          .star isWsC, Re.opt (.ch (fun c => c == 176 || c == 186)), .star isWsC,
          .ch (fun c => foldLower c == 101 || foldLower c == 119), .bnd]

/-- date_regex; the first numeric alternative requires the year group
(there is no question mark after it in the source pattern). -/
def dateRe : Re :=
  Re.cat [.bnd,
          Re.altList
            [Re.cat [Re.repRange 1 2 (.ch isDigitC), .ch (fun c => c == 47 || c == 45),
                     Re.repRange 1 2 (.ch isDigitC), .ch (fun c => c == 47 || c == 45),
                     Re.repRange 2 4 (.ch isDigitC)],
             Re.cat [Re.reps 4 (.ch isDigitC), .ch (fun c => c == 45),
                     Re.reps 2 (.ch isDigitC), .ch (fun c => c == 45),
                     Re.reps 2 (.ch isDigitC)],
             Re.cat [Re.altList [Re.litci (str "Jan"), Re.litci (str "Feb"), Re.litci (str "Mar"),
                                 Re.litci (str "Apr"), Re.litci (str "May"), Re.litci (str "Jun"),
                                 Re.litci (str "Jul"), Re.litci (str "Aug"), Re.litci (str "Sep"),
                                 Re.litci (str "Sept"), Re.litci (str "Oct"), Re.litci (str "Nov"),
                                 Re.litci (str "Dec")],
                     .star isAlphaC, Re.plus isWsC, Re.repRange 1 2 (.ch isDigitC),
                     Re.opt (.ch (fun c => c == 44)), Re.plus isWsC,
                     Re.repRange 2 4 (.ch isDigitC)]],
          .bnd]

/-- relative_date_regex. -/
def relativeDateRe : Re :=
  Re.cat [.bnd,
          Re.altList
            [Re.litci (str "yesterday"), Re.litci (str "today"), Re.litci (str "tomorrow"),
             Re.cat [Re.litci (str "last"), Re.plus isWsC,
                     Re.altList [Re.litci (str "night"), Re.litci (str "week"),
                                 Re.litci (str "month"), Re.litci (str "year"),
                                 Re.litci (str "Monday"), Re.litci (str "Tuesday"),
                                 Re.litci (str "Wednesday"), Re.litci (str "Thursday"),
                                 Re.litci (str "Friday"), Re.litci (str "Saturday"),
                                 Re.litci (str "Sunday")]],
             Re.cat [Re.litci (str "this"), Re.plus isWsC,
                     Re.altList [Re.litci (str "morning"), Re.litci (str "afternoon"),
                                 Re.litci (str "evening"), Re.litci (str "week"),
                                 Re.litci (str "month")]],
             Re.cat [Re.plus isDigitC, Re.plus isWsC,
                     Re.altList [Re.litci (str "day"), Re.litci (str "days"),
                                 Re.litci (str "week"), Re.litci (str "weeks"),
                                 Re.litci (str "month"), Re.litci (str "months"),
                                 Re.litci (str "year"), Re.litci (str "years")],
                     Re.plus isWsC, Re.litci (str "ago")]],
          .bnd]

/-- titled_name_regex. -/
def titledNameRe : Re :=
  Re.cat [.bnd,
          Re.altList [Re.cat [Re.litci (str "Dr"), Re.opt (Re.chci 115), Re.opt (.ch (fun c => c == 46))],
                      Re.cat [Re.litci (str "Prof"), Re.opt (.ch (fun c => c == 46))],
                      Re.cat [Re.litci (str "Mr"), Re.opt (.ch (fun c => c == 46))],
                      Re.cat [Re.litci (str "Mrs"), Re.opt (.ch (fun c => c == 46))],
                      Re.cat [Re.litci (str "Ms"), Re.opt (.ch (fun c => c == 46))],
                      Re.cat [Re.litci (str "Mx"), Re.opt (.ch (fun c => c == 46))],
                      Re.cat [Re.litci (str "Capt"), Re.opt (.ch (fun c => c == 46))],
                      Re.litci (str "Captain"),
                      Re.cat [Re.litci (str "Lt"), Re.opt (.ch (fun c => c == 46))],
                      Re.litci (str "Lieutenant"),
                      Re.cat [Re.litci (str "Sgt"), Re.opt (.ch (fun c => c == 46))],
                      Re.litci (str "Sergeant"),
                      Re.litci (str "Officer"), Re.litci (str "Chief"),
                      Re.litci (str "Judge"), Re.litci (str "Sir"),
                      Re.litci (str "Dame"), Re.litci (str "Madam"),
                      Re.cat [Re.litci (str "Rev"), Re.opt (.ch (fun c => c == 46))],
                      Re.litci (str "Reverend"), Re.litci (str "Father"),
                      Re.cat [Re.litci (str "Fr"), Re.opt (.ch (fun c => c == 46))],
                      Re.litci (str "Sister"), Re.litci (str "Brother"),
                      Re.litci (str "Pastor"), Re.litci (str "Chaplain"),
                      Re.litci (str "Rabbi"), Re.litci (str "Imam")],
          Re.plus isWsC, .ch isAlphaC, Re.plus isNameC,
          Re.opt (Re.cat [Re.plus isWsC, .ch isAlphaC, Re.plus isNameC])]

/-- first_last_regex, built from COMMON_FIRST_NAMES in list order (the
names are alphanumeric, so the escaping in the source is the
identity). -/
def firstLastRe : Re :=
  Re.cat [.bnd, Re.altList (COMMON_FIRST_NAMES.map Re.litci),
          Re.plus isWsC, .ch isAlphaC, Re.plus isNameC,
          Re.opt (Re.cat [Re.plus isWsC, .ch isAlphaC, Re.plus isNameC])]

/-- capital_sequence_regex: the only case-sensitive person pattern, so
its leading classes really require uppercase. -/
def capitalSequenceRe : Re :=
  Re.cat [.bnd, .ch isUpperC, Re.plus isCapSeqC, Re.plus isWsC,
          .ch isUpperC, Re.plus isCapSeqC,
          Re.opt (Re.cat [Re.plus isWsC, .ch isUpperC, Re.plus isCapSeqC]),
          .bnd]

/-! ## Dictionary building (build_dictionary, build_dictionary_regex) -/

/-- Characters before which the escape function of the regex crate places
a backslash, in the behaviour the dictionary builder relies on: the meta
characters, and the space (so that the later textual rewrite of
backslash-space into a flexible whitespace matcher fires).  The
apostrophe is left unescaped so that the apostrophe-class rewrite applies
to it.  This models the external regex crate escape routine with the
contract the source and the spec assume of it. -/
def isEscTarget (c : Nat) : Bool :=
  c == 92 || c == 46 || c == 43 || c == 42 || c == 63 || c == 40 || c == 41 ||
  c == 124 || c == 91 || c == 93 || c == 123 || c == 125 || c == 94 ||
  c == 36 || c == 35 || c == 38 || c == 45 || c == 126 || c == 32

/-- Expand every character of a list by a function. -/
def expandEach (f : Nat → List Nat) : List Nat → List Nat
  | [] => []
  | c :: r => f c ++ expandEach f r

/-- Model of regex escape over a term (see isEscTarget). -/
def escapeRe (t : List Nat) : List Nat :=
  expandEach (fun c => if isEscTarget c then [92, c] else [c]) t

/-- Model of Rust String replace with a one-character pattern: every
occurrence of the character becomes the replacement string. -/
def charReplace (c : Nat) (repl : List Nat) (s : List Nat) : List Nat :=
  expandEach (fun x => if x == c then repl else [x]) s

/-- Model of Rust String replace with a multi-character pattern:
left-to-right, non-overlapping. -/
def replaceSub (pat repl : List Nat) : Nat → List Nat → List Nat
  | 0, s => s
  | _, [] => []
  | fuel + 1, c :: rest =>
    if pat.isPrefixOf (c :: rest) && !pat.isEmpty then
      repl ++ replaceSub pat repl fuel ((c :: rest).drop pat.length)
    else
      c :: replaceSub pat repl fuel rest

/-- The per-term pattern text of build_dictionary_regex, with the exact
rewrite order of the source: escape the term, replace the typographic
apostrophe (8217) by the class bracket-8217-39-bracket, then replace the
plain apostrophe (39) by the same class (this second rewrite also hits
the apostrophes introduced by the first one), then replace escaped
spaces by a backslash-s-plus matcher. -/
def termPattern (t : List Nat) : List Nat :=
  let e1 := escapeRe t
  let e2 := charReplace 8217 [91, 8217, 39, 93] e1
  let e3 := charReplace 39 [91, 8217, 39, 93] e2
  replaceSub [92, 32] [92, 115, 43] (e3.length + 1) e3

/-- Body of a bracket class in the pattern texts the term rewrites
produce.  The regex crate treats an unescaped opening bracket inside a
class as a nested class and unions its members with the outer one, so
the scan keeps a nesting depth: a closing bracket at depth zero ends the
class, brackets adjust the depth and contribute no member, and every
other character is a literal member at any depth (the class bodies
produced here contain only apostrophes and brackets, never ranges,
negations or escapes).  Returns the member list and the text after the
class. -/
def classScan : Nat → List Nat → List Nat × List Nat
  | _, [] => ([], [])
  | 0, 93 :: r => ([], r)
  | d + 1, 93 :: r =>
    let m := classScan d r
    (m.1, m.2)
  | d, 91 :: r =>
    let m := classScan (d + 1) r
    (m.1, m.2)
  | d, c :: r =>
    let m := classScan d r
    (c :: m.1, m.2)

/-- Interpretation of a per-term pattern text as a regex, covering the
constructs such texts contain: backslash escapes (backslash-s-plus as a
whitespace run, any other escaped character as a literal), bracket
classes read with the nested-class union semantics of the regex crate
(classScan), and plain characters as case-insensitive literals, matching
how the regex crate reads these fragments under the case-insensitive
flag. -/
def compilePat : Nat → List Nat → Re
  | 0, _ => .eps
  | _, [] => .eps
  | fuel + 1, 92 :: 115 :: 43 :: rest => .seq (Re.plus isWsC) (compilePat fuel rest)
  | fuel + 1, 92 :: 115 :: rest => .seq (.ch isWsC) (compilePat fuel rest)
  | fuel + 1, 92 :: c :: rest => .seq (.ch (fun x => x == c)) (compilePat fuel rest)
  | _ + 1, [92] => .eps
  | fuel + 1, 91 :: rest =>
    let s := classScan 0 rest
    .seq (.ch (fun x => s.1.contains x)) (compilePat fuel s.2)
  | fuel + 1, c :: rest =>
    .seq (.ch (fun x => foldLower x == foldLower c)) (compilePat fuel rest)

/-- Trim of Rust strings (Unicode whitespace at both ends). -/
def trimWs (l : List Nat) : List Nat :=
  ((l.dropWhile isWsC).reverse.dropWhile isWsC).reverse

/-- Lexicographic order on codepoint lists; agrees with the byte order
Rust sorts strings by. -/
def lexLe : List Nat → List Nat → Bool
  | [], _ => true
  | _ :: _, [] => false
  | a :: as, b :: bs => if a < b then true else if b < a then false else lexLe as bs

/-- Insertion into a lexicographically sorted list. -/
def insertLe (x : List Nat) : List (List Nat) → List (List Nat)
  | [] => [x]
  | y :: ys => if lexLe x y then x :: y :: ys else y :: insertLe x ys

/-- Insertion sort by lexLe. -/
def sortLex (l : List (List Nat)) : List (List Nat) := l.foldr insertLe []

/-- Model of build_dictionary of scrubber.rs: defaults plus trimmed
non-empty overrides, deduplicated (the source collects into a set) and
sorted. -/
def build_dictionary (defaults : List (List Nat)) (overrides : List (List Nat)) :
    List (List Nat) :=
  sortLex ((defaults ++ (overrides.map trimWs).filter (fun e => !e.isEmpty)).dedup)

/-- Model of build_dictionary_regex of scrubber.rs: none for an empty
term list, otherwise the word-bounded case-insensitive alternation of the
per-term patterns in list order.  Compilation of the produced pattern
text cannot fail (compilePat is total), matching the fact that the regex
crate accepts every text the term rewrites produce. -/
def build_dictionary_regex (entries : List (List Nat)) : Option Re :=
  if entries.isEmpty then none
  else
    some (.seq .bnd
      (.seq (Re.altList (entries.map (fun t =>
        let p := termPattern t
        compilePat (p.length + 1) p))) .bnd))

/-! ## Name stopword filter, normalizer, tidier (scrubber.rs 410-443) -/

/-- Model of is_name_stopword of scrubber.rs: trim the candidate; reject
if its ASCII-lowercase form starts with the two st-prefixes (115 116 46
32 and 115 116 32); otherwise keep alphanumerics and spaces, uppercase,
trim again and look the result up in NAME_STOPLIST. -/
def is_name_stopword (candidate : List Nat) : Bool :=
  let trimmed := trimWs candidate
  let lower := trimmed.map foldLower
  if List.isPrefixOf [115, 116, 46, 32] lower || List.isPrefixOf [115, 116, 32] lower then
    true
  else
    let upper := (trimmed.filter (fun c => isAlnumC c || c == 32)).map foldUpper
    NAME_STOPLIST.contains (trimWs upper)

/-- Model of replace_names of scrubber.rs: filtered replacement that
rejects stopword candidates. -/
def replace_names (r : Re) (input : List Nat) (replacement : List Nat) :
    List Nat × Nat :=
  replace_all_filtered r input replacement (fun candidate => !is_name_stopword candidate)

/-- Modelled from the spec: the NFKC compatibility normalization that the
source takes from the external unicode-normalization crate (not part of
this repository).  On ASCII text and on the quote, dash, bullet and
degree codepoints handled by this development NFKC is the identity, and
it is modelled as the identity. -/
def nfkc (s : List Nat) : List Nat := s

/-- Character step of the first replace of normalize_input: the
typographic single quotes and the prime (8216, 8217, 8219, 8242) become
the plain apostrophe 39. -/
def foldQuotesChar (c : Nat) : Nat :=
  if c = 8216 ∨ c = 8217 ∨ c = 8219 ∨ c = 8242 then 39 else c

/-- Quote folding step of normalize_input (a one-character replacement
is a map). -/
def foldQuotes (s : List Nat) : List Nat := s.map foldQuotesChar

/-- Character step of the second replace: the typographic double quotes
and the double prime (8220, 8221, 8243) become 34. -/
def foldDquotesChar (c : Nat) : Nat :=
  if c = 8220 ∨ c = 8221 ∨ c = 8243 then 34 else c

/-- Double-quote folding step. -/
def foldDquotes (s : List Nat) : List Nat := s.map foldDquotesChar

/-- Character step of the third replace: en dash, em dash and the minus
sign (8211, 8212, 8722) become the hyphen 45. -/
def foldDashesChar (c : Nat) : Nat :=
  if c = 8211 ∨ c = 8212 ∨ c = 8722 then 45 else c

/-- Dash folding step. -/
def foldDashes (s : List Nat) : List Nat := s.map foldDashesChar

/-- Character step of the fourth replace: bullet, interpunct, hyphenation
point, hyphen bullet and katakana middle dot (8226, 183, 8231, 8259,
12539) become a space. -/
def foldBulletsChar (c : Nat) : Nat :=
  if c = 8226 ∨ c = 183 ∨ c = 8231 ∨ c = 8259 ∨ c = 12539 then 32 else c

/-- Bullet folding step. -/
def foldBullets (s : List Nat) : List Nat := s.map foldBulletsChar

/-- Non-newline whitespace, the class of MULTISPACE_RE. -/
def isNnwsC (c : Nat) : Bool := isWsC c && c != 13 && c != 10

/-- Model of the MULTISPACE_RE replacement: every maximal run of
non-newline whitespace becomes one space; the flag records whether the
previous character belonged to such a run. -/
def collapseWs : Bool → List Nat → List Nat
  | _, [] => []
  | inRun, c :: rest =>
    if isNnwsC c then
      if inRun then collapseWs true rest else 32 :: collapseWs true rest
    else c :: collapseWs false rest

/-- Model of normalize_input of scrubber.rs: NFKC, the four folding
steps in source order, then whitespace collapse. -/
def normalize_input (input : List Nat) : List Nat :=
  collapseWs false (foldBullets (foldDashes (foldDquotes (foldQuotes (nfkc input)))))

/-- The tidy punctuation class (dot, comma, semicolon, colon, bang,
question mark). -/
def isPunctC (c : Nat) : Bool :=
  c == 46 || c == 44 || c == 59 || c == 58 || c == 33 || c == 63

/-- Model of the SPACE_AROUND_PUNCT_RE replacement: a whitespace run
immediately followed by a tidy punctuation mark is deleted; pending holds
the current whitespace run in reverse. -/
def tidyWsPunct (pending : List Nat) : List Nat → List Nat
  | [] => pending.reverse
  | c :: rest =>
    if isWsC c then tidyWsPunct (c :: pending) rest
    else if isPunctC c && !pending.isEmpty then c :: tidyWsPunct [] rest
    else pending.reverse ++ c :: tidyWsPunct [] rest

/-- Flush of a reversed punctuation run for DUP_PUNCT_RE: a run of two or
more tidy punctuation marks is replaced by the capture of its last
repetition, which is the last mark of the run (the head of the reversed
run); a single mark stays. -/
def flushPunctRun (run : List Nat) : List Nat :=
  match run with
  | [] => []
  | [c] => [c]
  | c :: _ :: _ => [c]

/-- Model of the DUP_PUNCT_RE replacement; run holds the current
punctuation run in reverse. -/
def tidyDup (run : List Nat) : List Nat → List Nat
  | [] => flushPunctRun run
  | c :: rest =>
    if isPunctC c then tidyDup (c :: run) rest
    else flushPunctRun run ++ c :: tidyDup [] rest

/-- Model of tidy_punctuation of scrubber.rs: drop whitespace before
punctuation, collapse punctuation runs, trim. -/
def tidy_punctuation (input : List Nat) : List Nat :=
  trimWs (tidyDup [] (tidyWsPunct [] input))

/-! ## Configuration, categories, stats, the engine (config.rs, main.rs, scrubber.rs) -/

/-- Model of ScrubberConfig of config.rs. -/
structure ScrubberConfig where
  names : List (List Nat) := []
  keywords : List (List Nat) := []
  mrn_min_length : Option Nat := none
  mrn_max_length : Option Nat := none

/-- The category enumeration of main.rs (the last six variants are the
unimplemented Safe-Harbor extensions; the core only tests membership of
the first eleven). -/
inductive Category where
  | Email | Phone | Date | RelativeDate | Ssn | Mrn | Zip | Person
  | Facility | Address | Coordinate | Url | Insurance | License
  | Vehicle | Device | Ip
deriving DecidableEq, Repr

/-- Model of ScrubStats of scrubber.rs. -/
structure ScrubStats where
  emails : Nat := 0
  phones : Nat := 0
  dates : Nat := 0
  relative_dates : Nat := 0
  ssn : Nat := 0
  mrn : Nat := 0
  zip_codes : Nat := 0
  persons : Nat := 0
  facilities : Nat := 0
  addresses : Nat := 0
  coordinates : Nat := 0
deriving DecidableEq, Repr

/-- ScrubStats total of scrubber.rs. -/
def ScrubStats.total (s : ScrubStats) : Nat :=
  s.emails + s.phones + s.dates + s.relative_dates + s.ssn + s.mrn +
  s.zip_codes + s.persons + s.facilities + s.addresses + s.coordinates

/-- Model of the Scrubber struct: the compiled patterns. -/
structure Scrubber where
  email_regex : Re
  phone_regex : Re
  ssn_regex : Re
  mrn_regex : Re
  mrn_label_regex : Re
  zip_regex : Re
  facility_regex : Re
  custom_facility_regex : Option Re
  address_regex : Re
  coordinate_regex : Re
  name_dictionary_regex : Option Re
  titled_name_regex : Re
  first_last_regex : Re
  capital_sequence_regex : Re
  date_regex : Re
  relative_date_regex : Re

/-- Model of Scrubber::new: the digit-length bounds default to 6 and 10,
a zero bound or an inverted range is a construction error, and otherwise
every pattern is built (the builtin patterns always compile; the
dictionary patterns are produced by build_dictionary_regex). -/
def Scrubber.new (config : ScrubberConfig) : Except String Scrubber :=
  let mrn_min := config.mrn_min_length.getD 6
  let mrn_max := config.mrn_max_length.getD 10
  if mrn_min == 0 || mrn_max == 0 || mrn_max < mrn_min then
    .error "invalid MRN length range"
  else
    .ok
      { email_regex := emailRe
        phone_regex := phoneRe
        ssn_regex := ssnRe
        mrn_regex := mrnRe mrn_min mrn_max
        mrn_label_regex := mrnLabelRe
        zip_regex := zipRe
        facility_regex := facilityRe
        custom_facility_regex :=
          build_dictionary_regex (build_dictionary DEFAULT_FACILITY_TERMS config.keywords)
        address_regex := addressRe
        coordinate_regex := coordinateRe
        name_dictionary_regex :=
          build_dictionary_regex (build_dictionary DEFAULT_NAMES config.names)
        titled_name_regex := titledNameRe
        first_last_regex := firstLastRe
        capital_sequence_regex := capitalSequenceRe
        date_regex := dateRe
        relative_date_regex := relativeDateRe }

/-- Model of Scrubber::scrub: normalization, the category passes in
source order (each guarded by skip membership), the punctuation tidy
pass, and the stats record assembled from the per-pass counts. -/
def Scrubber.scrub (self : Scrubber) (input : List Nat) (skip : Category → Bool) :
    List Nat × ScrubStats :=
  let normalized := normalize_input input
  let p1 := if skip Category.Email then (normalized, 0)
            else replace_all self.email_regex normalized EMAIL_TOKEN
  let p2 := if skip Category.Phone then (p1.1, 0)
            else replace_all self.phone_regex p1.1 PHONE_TOKEN
  let p3 := if skip Category.Ssn then (p2.1, 0)
            else replace_all self.ssn_regex p2.1 SSN_TOKEN
  let p4 := if skip Category.Mrn then (p3.1, 0)
            else
              let a := replace_all self.mrn_label_regex p3.1 MRN_TOKEN
              let b := replace_all self.mrn_regex a.1 MRN_TOKEN
              (b.1, a.2 + b.2)
  let p5 := if skip Category.Zip then (p4.1, 0)
            else replace_all self.zip_regex p4.1 ZIP_TOKEN
  let p6 := if skip Category.Facility then (p5.1, 0)
            else
              let a := replace_all self.facility_regex p5.1 FACILITY_TOKEN
              match self.custom_facility_regex with
              | some r =>
                let b := replace_all r a.1 FACILITY_TOKEN
                (b.1, a.2 + b.2)
              | none => (a.1, a.2)
  let p7 := if skip Category.Address then (p6.1, 0)
            else replace_all self.address_regex p6.1 ADDRESS_TOKEN
  let p8 := if skip Category.Coordinate then (p7.1, 0)
            else replace_all self.coordinate_regex p7.1 COORD_TOKEN
  let p9 := if skip Category.Person then (p8.1, 0)
            else
              let d := match self.name_dictionary_regex with
                       | some r => replace_names r p8.1 PERSON_TOKEN
                       | none => (p8.1, 0)
              let t := replace_names self.titled_name_regex d.1 PERSON_TOKEN
              let f := replace_names self.first_last_regex t.1 PERSON_TOKEN
              let c := replace_names self.capital_sequence_regex f.1 PERSON_TOKEN
              (c.1, d.2 + t.2 + f.2 + c.2)
  let p10 := if skip Category.Date then (p9.1, 0)
             else replace_all self.date_regex p9.1 DATE_TOKEN
  let p11 := if skip Category.RelativeDate then (p10.1, 0)
             else replace_all self.relative_date_regex p10.1 REL_DATE_TOKEN
  (tidy_punctuation p11.1,
   { emails := p1.2, phones := p2.2, ssn := p3.2, mrn := p4.2, zip_codes := p5.2,
     facilities := p6.2, addresses := p7.2, coordinates := p8.2, persons := p9.2,
     dates := p10.2, relative_dates := p11.2 })

/-- The default configuration (all fields absent, as when no config file
is given). -/
def defaultConfig : ScrubberConfig := {}

/-- Construct an engine and scrub in one step; none when construction
fails. -/
def scrubWith (cfg : ScrubberConfig) (input : List Nat) (skip : Category → Bool) :
    Option (List Nat × ScrubStats) :=
  match Scrubber.new cfg with
  | .ok s => some (s.scrub input skip)
  | .error _ => none

/-- The empty skip set. -/
def noSkip : Category → Bool := fun _ => false

/-- Count of the occurrences of a pattern in a text (stepping one
character at a time, which counts every occurrence of the
non-self-overlapping placeholder tokens exactly once). -/
def countOcc (pat : List Nat) : List Nat → Nat
  | [] => 0
  | c :: rest => (if pat.isPrefixOf (c :: rest) then 1 else 0) + countOcc pat rest

/-- A placeholder engine used only to make total extraction from
Scrubber.new possible; every concrete construction below succeeds, so it
is never reached there. -/
def fallbackScrubber : Scrubber :=
  { email_regex := .eps, phone_regex := .eps, ssn_regex := .eps, mrn_regex := .eps
    mrn_label_regex := .eps, zip_regex := .eps, facility_regex := .eps
    custom_facility_regex := none, address_regex := .eps, coordinate_regex := .eps
    name_dictionary_regex := none, titled_name_regex := .eps, first_last_regex := .eps
    capital_sequence_regex := .eps, date_regex := .eps, relative_date_regex := .eps }

/-- The engine built from a configuration (fallback when construction
fails, which the concrete uses below never hit). -/
def mkScrubber (cfg : ScrubberConfig) : Scrubber :=
  match Scrubber.new cfg with
  | .ok s => s
  | .error _ => fallbackScrubber
/-- Character table stated from the spec side of C8: typographic single
quotes and primes to the apostrophe, typographic double quotes to the
quotation mark, minus-like dashes to the hyphen, bullet and interpunct
characters to a space, everything else unchanged. -/
def foldSpecChar (c : Nat) : Nat :=
  if c = 8216 ∨ c = 8217 ∨ c = 8219 ∨ c = 8242 then 39
  else if c = 8220 ∨ c = 8221 ∨ c = 8243 then 34
  else if c = 8211 ∨ c = 8212 ∨ c = 8722 then 45
  else if c = 8226 ∨ c = 183 ∨ c = 8231 ∨ c = 8259 ∨ c = 12539 then 32
  else c

/-- The fifteen codepoints that the normalizer folds away. -/
def isFoldedSrc (c : Nat) : Bool :=
  c == 8216 || c == 8217 || c == 8219 || c == 8242 ||
  c == 8220 || c == 8221 || c == 8243 ||
  c == 8211 || c == 8212 || c == 8722 ||
  c == 8226 || c == 183 || c == 8231 || c == 8259 || c == 12539

/-- No two adjacent characters are both non-newline whitespace. -/
def noAdjacentNnws : List Nat → Bool
  | a :: b :: t => !(isNnwsC a && isNnwsC b) && noAdjacentNnws (b :: t)
  | _ => true

/-- The head, when present, is not non-newline whitespace. -/
def headNotNnws : List Nat → Bool
  | [] => true
  | c :: _ => !isNnwsC c

/-- Newline characters (line feed and carriage return, the characters
MULTISPACE_RE leaves out of its class). -/
def isNlC (c : Nat) : Bool := c == 10 || c == 13

/-- Characters of a word-shaped dictionary term: alphanumerics, the
space, and the two apostrophes (the character kinds whose flexible
matching C5 describes). -/
def okTermChar (c : Nat) : Bool := isAlnumC c || c == 32 || c == 39 || c == 8217

/-- Word-shaped term: made of okTermChar characters and beginning and
ending with an alphanumeric.  This is the whole-word reading of the
claim: the dictionary pattern brackets every term in word boundaries, so
a term can only match as a whole word when it starts and ends with a
word character. -/
def okTerm (t : List Nat) : Bool :=
  t.all okTermChar &&
  (match t.head? with | some c => isAlnumC c | none => false) &&
  (match t.getLast? with | some c => isAlnumC c | none => false)

/-- The pattern fragment the term rewrites of build_dictionary_regex
produce for one term character: a space becomes the backslash-s-plus
matcher, a plain apostrophe the two-apostrophe class, a typographic
apostrophe the nested two-apostrophe class, anything else stands for
itself. -/
def itemPat (a : Nat) : List Nat :=
  if a == 32 then [92, 115, 43]
  else if a == 39 then [91, 8217, 39, 93]
  else if a == 8217 then [91, 8217, 91, 8217, 39, 93, 93]
  else [a]

/-- Concatenation of the per-character fragments of a term. -/
def flatItems : List Nat → List Nat
  | [] => []
  | a :: t => itemPat a ++ flatItems t

/-- Structural form of the backslash-space rewrite, used to reason about
replaceSub once its fuel is at least the input length. -/
def subSpec : List Nat → List Nat
  | [] => []
  | [c] => [c]
  | c :: d :: r =>
    if c == 92 && d == 32 then 92 :: 115 :: 43 :: subSpec r
    else c :: subSpec (d :: r)

/-- The flexible variants of a term that C5 promises the dictionary
pattern matches: characterwise, a letter or digit matches any character
with the same lowercase folding (case-insensitivity), an apostrophe of
either kind in the term matches an apostrophe of either kind in the
text, and an internal literal space matches any non-empty whitespace
run. -/
inductive TermVariant : List Nat → List Nat → Prop where
  | nil : TermVariant [] []
  | alnum {a c : Nat} {t v : List Nat} :
      isAlnumC a = true → foldLower c = foldLower a →
      TermVariant t v → TermVariant (a :: t) (c :: v)
  | apos {a c : Nat} {t v : List Nat} :
      (a = 39 ∨ a = 8217) → (c = 39 ∨ c = 8217) →
      TermVariant t v → TermVariant (a :: t) (c :: v)
  | space {t v r : List Nat} :
      r ≠ [] → (∀ c ∈ r, isWsC c = true) →
      TermVariant t v → TermVariant (32 :: t) (r ++ v)

/-- Last-character invariant threaded through the branch-matching proof:
either the remaining term still ends in an alphanumeric, or the term is
exhausted and the character consumed last was alphanumeric (so the
closing word boundary of the dictionary pattern holds). -/
def lastAlnum (t : List Nat) (prev : Option Nat) : Prop :=
  match t.getLast? with
  | some l => isAlnumC l = true
  | none =>
    match prev with
    | some c => isAlnumC c = true
    | none => False

/-- C9: every stats record returned by scrub has non-negative counts (they
are naturals in the model, as usize in the source) and its derived total is
the sum of exactly the eleven per-category fields. -/
theorem claim_C9 : ∀ (sc : Scrubber) (input : List Nat) (skip : Category → Bool),
    ((sc.scrub input skip).2).total =
      (sc.scrub input skip).2.emails + (sc.scrub input skip).2.phones +
      (sc.scrub input skip).2.dates + (sc.scrub input skip).2.relative_dates +
      (sc.scrub input skip).2.ssn + (sc.scrub input skip).2.mrn +
      (sc.scrub input skip).2.zip_codes + (sc.scrub input skip).2.persons +
      (sc.scrub input skip).2.facilities + (sc.scrub input skip).2.addresses +
      (sc.scrub input skip).2.coordinates :=
  fun _ _ _ => rfl

/-- C10: when every implemented category is in the skip set, scrub returns
exactly the punctuation-tidied normalization of the input and an all-zero
stats record. -/
theorem claim_C10 : ∀ (sc : Scrubber) (input : List Nat) (skip : Category → Bool),
    skip Category.Email = true → skip Category.Phone = true →
    skip Category.Date = true → skip Category.RelativeDate = true →
    skip Category.Ssn = true → skip Category.Mrn = true →
    skip Category.Zip = true → skip Category.Person = true →
    skip Category.Facility = true → skip Category.Address = true →
    skip Category.Coordinate = true →
    sc.scrub input skip = (tidy_punctuation (normalize_input input), {}) := by
  intro sc input skip h1 h2 h3 h4 h5 h6 h7 h8 h9 h10 h11
  simp [Scrubber.scrub, h1, h2, h3, h4, h5, h6, h7, h8, h9, h10, h11]

/-- C10 witness at a concrete engine, input and the all-true skip set. -/
theorem claim_C10_witness :
    Scrubber.scrub (mkScrubber defaultConfig) (str "Call 555-111-2222.") (fun _ => true) =
      (tidy_punctuation (normalize_input (str "Call 555-111-2222.")), {}) :=
  claim_C10 (mkScrubber defaultConfig) (str "Call 555-111-2222.") (fun _ => true)
    rfl rfl rfl rfl rfl rfl rfl rfl rfl rfl rfl

/-- C2: engine construction succeeds exactly when the effective digit
bounds (defaults 6 and 10) satisfy one le minimum le maximum; a zero bound
or an inverted range is a construction error. -/
theorem claim_C2 : ∀ cfg : ScrubberConfig,
    (Scrubber.new cfg).isOk = true ↔
      (1 ≤ cfg.mrn_min_length.getD 6 ∧
       cfg.mrn_min_length.getD 6 ≤ cfg.mrn_max_length.getD 10) := by
  intro cfg
  simp only [Scrubber.new]
  split
  · next h =>
    simp only [Except.isOk, Except.toBool]
    constructor
    · intro hh; cases hh
    · intro hh
      simp only [Bool.or_eq_true, beq_iff_eq, decide_eq_true_eq] at h
      omega
  · next h =>
    simp only [Except.isOk, Except.toBool, true_iff]
    simp only [Bool.or_eq_true, beq_iff_eq, decide_eq_true_eq] at h
    push_neg at h
    omega
set_option maxRecDepth 20000 in
/-- C1: a skipped category contributes a zero count for every engine,
input and skip set (its pass, including every person sub-pass, is not
run); and on the concrete acceptance input with Phone skipped the phone
number survives verbatim while the email is still redacted and counted. -/
theorem claim_C1 :
    (∀ (sc : Scrubber) (input : List Nat) (skip : Category → Bool),
      (skip Category.Email = true → (sc.scrub input skip).2.emails = 0) ∧
      (skip Category.Phone = true → (sc.scrub input skip).2.phones = 0) ∧
      (skip Category.Date = true → (sc.scrub input skip).2.dates = 0) ∧
      (skip Category.RelativeDate = true → (sc.scrub input skip).2.relative_dates = 0) ∧
      (skip Category.Ssn = true → (sc.scrub input skip).2.ssn = 0) ∧
      (skip Category.Mrn = true → (sc.scrub input skip).2.mrn = 0) ∧
      (skip Category.Zip = true → (sc.scrub input skip).2.zip_codes = 0) ∧
      (skip Category.Person = true → (sc.scrub input skip).2.persons = 0) ∧
      (skip Category.Facility = true → (sc.scrub input skip).2.facilities = 0) ∧
      (skip Category.Address = true → (sc.scrub input skip).2.addresses = 0) ∧
      (skip Category.Coordinate = true → (sc.scrub input skip).2.coordinates = 0)) ∧
    scrubWith defaultConfig (str "Call 555-111-2222 and email foo@bar.com.")
        (fun c => c == Category.Phone) =
      some (str "Call 555-111-2222 and email [EMAIL].", { emails := 1 }) ∧
    countOcc (str "555-111-2222") (str "Call 555-111-2222 and email [EMAIL].") = 1 ∧
    countOcc EMAIL_TOKEN (str "Call 555-111-2222 and email [EMAIL].") = 1 := by
  refine ⟨fun sc input skip => ⟨?_, ?_, ?_, ?_, ?_, ?_, ?_, ?_, ?_, ?_, ?_⟩, by decide, by decide, by decide⟩
  all_goals intro h
  all_goals simp [Scrubber.scrub, h]

/-- C1 witness: the skipped-category count is zero at a concrete engine,
input and skip set. -/
theorem claim_C1_witness :
    (Scrubber.scrub (mkScrubber defaultConfig) (str "a") (fun _ => true)).2.emails = 0 :=
  (claim_C1.1 (mkScrubber defaultConfig) (str "a") (fun _ => true)).1 rfl
/-- C6: the stopword filter rejects a candidate exactly when its
punctuation-stripped upper-cased form equals a stoplist entry, or its
trimmed form starts (case-insensitively) with the two st-prefixes, dot
form 83 116 46 32 or bare form 83 116 32; the filter is a pure function
of the candidate text alone (its model takes no context argument), so a
rejected candidate is rejected on every re-evaluation. -/
theorem claim_C6 : ∀ candidate : List Nat,
    is_name_stopword candidate = true ↔
      (trimWs (((trimWs candidate).filter (fun c => isAlnumC c || c == 32)).map foldUpper)
          ∈ NAME_STOPLIST ∨
       [115, 116, 46, 32] <+: (trimWs candidate).map foldLower ∨
       [115, 116, 32] <+: (trimWs candidate).map foldLower) := by
  intro candidate
  unfold is_name_stopword
  dsimp only
  split
  · next h =>
    simp only [Bool.or_eq_true, List.isPrefixOf_iff_prefix] at h
    simp [h]
  · next h =>
    simp only [Bool.or_eq_true, List.isPrefixOf_iff_prefix] at h
    push_neg at h
    simp [h]

/-- The four folding steps compose, characterwise, to the spec-side
table. -/
theorem foldChain_char (c : Nat) :
    foldBulletsChar (foldDashesChar (foldDquotesChar (foldQuotesChar c))) = foldSpecChar c := by
  unfold foldBulletsChar foldDashesChar foldDquotesChar foldQuotesChar foldSpecChar
  split_ifs <;> omega

/-- The four folding steps equal one map of the spec-side table. -/
theorem foldSteps_eq (s : List Nat) :
    foldBullets (foldDashes (foldDquotes (foldQuotes s))) = s.map foldSpecChar := by
  simp only [foldBullets, foldDashes, foldDquotes, foldQuotes, List.map_map]
  exact List.map_congr_left (fun a _ => foldChain_char a)

set_option linter.unnecessarySeqFocus false in
/-- The spec-side table never produces a folded codepoint. -/
theorem foldSpecChar_notFolded (c : Nat) : isFoldedSrc (foldSpecChar c) = false := by
  unfold foldSpecChar isFoldedSrc
  split_ifs <;> simp <;> omega

/-- Whitespace collapse preserves a character predicate that holds of the
space. -/
theorem collapseWs_all (p : Nat → Bool) (h32 : p 32 = true) :
    ∀ (l : List Nat) (b : Bool), l.all p = true → (collapseWs b l).all p = true := by
  intro l
  induction l with
  | nil => intro b _; simp [collapseWs]
  | cons c t ih =>
    intro b hall
    simp only [List.all_cons, Bool.and_eq_true] at hall
    unfold collapseWs
    by_cases hn : isNnwsC c = true
    · simp only [hn, if_true]
      cases b with
      | true => simpa using ih true hall.2
      | false => simp [h32, ih true hall.2]
    · simp only [hn]
      simp [hall.1, ih false hall.2, hn]

/-- Every non-newline whitespace character of a collapsed text is the
space. -/
theorem collapseWs_nnws32 :
    ∀ (l : List Nat) (b : Bool),
      (collapseWs b l).all (fun c => !isNnwsC c || c == 32) = true := by
  intro l
  induction l with
  | nil => intro b; simp [collapseWs]
  | cons c t ih =>
    intro b
    unfold collapseWs
    by_cases hn : isNnwsC c = true
    · simp only [hn, if_true]
      cases b with
      | true => simpa using ih true
      | false => simp [ih true]
    · simp [hn, ih false]

/-- A collapsed text has no two adjacent non-newline whitespace
characters, and when the flag says a run is open it does not start with
one. -/
theorem collapseWs_adj :
    ∀ (l : List Nat) (b : Bool),
      noAdjacentNnws (collapseWs b l) = true ∧
      (b = true → headNotNnws (collapseWs b l) = true) := by
  intro l
  induction l with
  | nil =>
    intro b
    exact ⟨by simp [collapseWs, noAdjacentNnws], fun _ => by simp [collapseWs, headNotNnws]⟩
  | cons c t ih =>
    intro b
    unfold collapseWs
    by_cases hn : isNnwsC c = true
    · simp only [hn, if_true]
      cases b with
      | true =>
        refine ⟨(ih true).1, fun _ => (ih true).2 rfl⟩
      | false =>
        refine ⟨?_, fun h => by cases h⟩
        have hh := (ih true).2 rfl
        have ha := (ih true).1
        cases hx : collapseWs true t with
        | nil => simp [noAdjacentNnws]
        | cons d t2 =>
          rw [hx] at hh ha
          simp only [headNotNnws] at hh
          simp [noAdjacentNnws, hh, ha]
    · simp only [hn, Bool.false_eq_true, if_false]
      refine ⟨?_, fun _ => by simp [headNotNnws, hn]⟩
      have ha := (ih false).1
      cases hx : collapseWs false t with
      | nil => simp [noAdjacentNnws]
      | cons d t2 =>
        rw [hx] at ha
        simp [noAdjacentNnws, hn, ha]

/-- The spec-side table maps newlines to newlines and nothing else to
them. -/
theorem foldSpecChar_nl (c : Nat) : isNlC (foldSpecChar c) = isNlC c := by
  unfold foldSpecChar isNlC
  split_ifs <;> simp <;> omega

/-- A newline is unchanged by the spec-side table. -/
theorem foldSpecChar_nl_id (c : Nat) (h : isNlC c = true) : foldSpecChar c = c := by
  simp only [isNlC, Bool.or_eq_true, beq_iff_eq] at h
  unfold foldSpecChar
  split_ifs <;> omega

/-- The spec-side map preserves the newline subsequence. -/
theorem filter_nl_map (l : List Nat) :
    (l.map foldSpecChar).filter isNlC = l.filter isNlC := by
  induction l with
  | nil => rfl
  | cons c t ih =>
    simp only [List.map_cons, List.filter_cons, foldSpecChar_nl]
    by_cases h : isNlC c = true
    · simp [h, foldSpecChar_nl_id c h, ih]
    · simp [h, ih]

/-- Non-newline whitespace is not a newline. -/
theorem nnws_not_nl (c : Nat) (h : isNnwsC c = true) : isNlC c = false := by
  simp only [isNnwsC, Bool.and_eq_true, bne_iff_ne, ne_eq] at h
  simp only [isNlC, Bool.or_eq_false_iff, beq_eq_false_iff_ne, ne_eq]
  omega

/-- Whitespace collapse preserves the newline subsequence. -/
theorem filter_nl_collapse :
    ∀ (l : List Nat) (b : Bool), (collapseWs b l).filter isNlC = l.filter isNlC := by
  intro l
  induction l with
  | nil => intro b; rfl
  | cons c t ih =>
    intro b
    unfold collapseWs
    by_cases hn : isNnwsC c = true
    · simp only [hn, if_true]
      have hcnl := nnws_not_nl c hn
      cases b with
      | true => simp [List.filter_cons, hcnl, ih true]
      | false =>
        have h32 : isNlC 32 = false := rfl
        simp [List.filter_cons, hcnl, h32, ih true]
    · simp [hn, List.filter_cons, ih false]

set_option maxRecDepth 4000 in
/-- C8: the normalizer is total (a function of the text alone, with no
category input and no failure value); its folding phase is exactly the
per-character spec table followed by whitespace collapse; its output
contains none of the folded codepoints; every non-newline whitespace run
of the output is one single space (all such characters are the space and
no two are adjacent); and the newline characters of the input are
preserved in order. -/
theorem claim_C8 : ∀ input : List Nat,
    normalize_input input = collapseWs false ((nfkc input).map foldSpecChar) ∧
    (normalize_input input).all (fun c => !isFoldedSrc c) = true ∧
    (normalize_input input).all (fun c => !isNnwsC c || c == 32) = true ∧
    noAdjacentNnws (normalize_input input) = true ∧
    (normalize_input input).filter isNlC = input.filter isNlC := by
  intro input
  have hfold : normalize_input input = collapseWs false ((nfkc input).map foldSpecChar) := by
    unfold normalize_input
    rw [foldSteps_eq]
  refine ⟨hfold, ?_, ?_, ?_, ?_⟩
  · rw [hfold]
    refine collapseWs_all _ (by decide) _ false ?_
    simp only [List.all_map, List.all_eq_true]
    intro a _
    simp [foldSpecChar_notFolded]
  · rw [hfold]; exact collapseWs_nnws32 _ false
  · rw [hfold]; exact (collapseWs_adj _ false).1
  · rw [hfold, filter_nl_collapse, filter_nl_map]
    rfl

set_option maxRecDepth 20000 in
/-- C7: on the acceptance input with nothing skipped, the default engine
emits the email and phone placeholders exactly once each and counts one
email and one phone. -/
theorem claim_C7 :
    scrubWith defaultConfig (str "Reach me at jane.doe@example.com or (555) 867-5309.") noSkip =
      some (str "Reach me at [EMAIL] or ([PHONE].", { emails := 1, phones := 1 }) ∧
    countOcc EMAIL_TOKEN (str "Reach me at [EMAIL] or ([PHONE].") = 1 ∧
    countOcc PHONE_TOKEN (str "Reach me at [EMAIL] or ([PHONE].") = 1 := by
  refine ⟨by decide, by decide, by decide⟩

set_option maxRecDepth 20000 in
/-- C4 counterexample: the claim says a standalone numeric date without a
year, 12/05, is replaced and counted, but the first numeric alternative
of date_regex requires the year group, so the span survives and dates
stays zero. -/
theorem claim_C4_counterexample :
    scrubWith defaultConfig (str "On 12/05 patient was seen.") noSkip =
      some (str "On 12/05 patient was seen.", {}) ∧
    countOcc (str "12/05") (str "On 12/05 patient was seen.") = 1 ∧
    countOcc DATE_TOKEN (str "On 12/05 patient was seen.") = 0 := by
  refine ⟨by decide, by decide, by decide⟩

set_option maxRecDepth 20000 in
/-- C4 amended: the Date detector matches numeric dates only when the
year component is present (MM/DD/YY up to MM/DD/YYYY, also with dashes),
the YYYY-MM-DD form, and month-name forms; a standalone numeric date
without a year such as 12/05 is left unchanged and uncounted. -/
theorem claim_C4 :
    scrubWith defaultConfig (str "Seen on 12/05/2024 at clinic.") noSkip =
      some (str "Seen on [DATE] at clinic.", { dates := 1 }) ∧
    scrubWith defaultConfig (str "noted 2024-12-05 here.") noSkip =
      some (str "noted [DATE] here.", { dates := 1 }) ∧
    scrubWith defaultConfig (str "seen jan 5, 2024.") noSkip =
      some (str "seen [DATE].", { dates := 1 }) ∧
    scrubWith defaultConfig (str "On 12/05 patient was seen.") noSkip =
      some (str "On 12/05 patient was seen.", {}) := by
  refine ⟨by decide, by decide, by decide, by decide⟩

set_option maxRecDepth 20000 in
/-- C3 counterexample: scrub of the input St-space-dot-space Ab General
Bc yields St. Ab [FACILITY] (the tidy pass glues St and the dot
together); scrubbing that output again matches the facility pattern on
the newly formed St. prefix, so the second run changes the text and
counts a facility: redaction is not a fixed point on its own output. -/
theorem claim_C3_counterexample :
    Scrubber.scrub (mkScrubber defaultConfig) (str "St . Ab General Bc") noSkip =
      (str "St. Ab [FACILITY]", { facilities := 1 }) ∧
    Scrubber.scrub (mkScrubber defaultConfig) (str "St. Ab [FACILITY]") noSkip =
      (str "[FACILITY] [FACILITY]", { facilities := 1 }) ∧
    str "[FACILITY] [FACILITY]" ≠ str "St. Ab [FACILITY]" := by
  refine ⟨by decide, by decide, by decide⟩

set_option maxRecDepth 20000 in
/-- C3 amended: every placeholder token is itself left unchanged with an
all-zero stats record (no token matches any detection pattern of the
default engine); but scrub is not a fixed point on arbitrary redacted
output, because the punctuation tidy pass can rewrite surviving text
into a form a detector matches on the second run. -/
theorem claim_C3 :
    ([EMAIL_TOKEN, PHONE_TOKEN, DATE_TOKEN, REL_DATE_TOKEN, SSN_TOKEN, MRN_TOKEN,
      ADDRESS_TOKEN, PERSON_TOKEN, FACILITY_TOKEN, ZIP_TOKEN, COORD_TOKEN].all
      (fun tok => scrubWith defaultConfig tok noSkip == some (tok, {}))) = true := by
  decide


/-- expandEach distributes over append. -/
theorem expandEach_append (f : Nat → List Nat) (x y : List Nat) :
    expandEach f (x ++ y) = expandEach f x ++ expandEach f y := by
  induction x with
  | nil => rfl
  | cons c t ih => simp [expandEach, ih]

/-- subSpec steps over any character other than a backslash. -/
theorem subSpec_cons (c : Nat) (hc : c ≠ 92) (r : List Nat) :
    subSpec (c :: r) = c :: subSpec r := by
  cases r with
  | nil => rfl
  | cons d r2 =>
    have hb : (c == 92) = false := by simpa using hc
    simp [subSpec, hb]

/-- subSpec rewrites an escaped space. -/
theorem subSpec_pair (r : List Nat) :
    subSpec (92 :: 32 :: r) = 92 :: 115 :: 43 :: subSpec r := by
  simp [subSpec]

/-- replaceSub with empty input is empty at any fuel. -/
theorem replaceSub_nil (pat repl : List Nat) (f : Nat) :
    replaceSub pat repl f [] = [] := by
  cases f <;> rfl

/-- With fuel at least the input length, the backslash-space rewrite of
replaceSub computes subSpec. -/
theorem replaceSub_eq_subSpec :
    ∀ (f : Nat) (s : List Nat), s.length ≤ f →
      replaceSub [92, 32] [92, 115, 43] f s = subSpec s := by
  intro f
  induction f with
  | zero =>
    intro s hs
    have : s = [] := List.length_eq_zero.mp (Nat.le_zero.mp hs)
    subst this
    rfl
  | succ f ih =>
    intro s hs
    match s with
    | [] => rfl
    | [c] =>
      have hpre : [92, 32].isPrefixOf [c] = false := by
        simp [List.isPrefixOf]
      simp [replaceSub, hpre, replaceSub_nil, subSpec]
    | c :: d :: r =>
      by_cases h : c = 92 ∧ d = 32
      · obtain ⟨rfl, rfl⟩ := h
        have hpre : [92, 32].isPrefixOf (92 :: 32 :: r) = true := by
          simp [List.isPrefixOf]
        have hr : r.length ≤ f := by
          simp only [List.length_cons] at hs
          omega
        simp [replaceSub, hpre, subSpec_pair, ih r hr]
      · have hpre : [92, 32].isPrefixOf (c :: d :: r) = false := by
          rcases not_and_or.mp h with hc | hd
          · simp only [List.isPrefixOf, Bool.and_eq_false_iff, beq_eq_false_iff_ne, ne_eq]
            left
            omega
          · simp only [List.isPrefixOf, Bool.and_eq_false_iff, beq_eq_false_iff_ne, ne_eq]
            right
            left
            omega
        have hr : (d :: r).length ≤ f := by
          simp only [List.length_cons] at hs ⊢
          omega
        have hsub : subSpec (c :: d :: r) = c :: subSpec (d :: r) := by
          have hb : (c == 92 && d == 32) = false := by
            simp only [Bool.and_eq_false_iff, beq_eq_false_iff_ne, ne_eq]
            tauto
          simp [subSpec, hb]
        simp [replaceSub, hpre, hsub, ih (d :: r) hr]

/-- Alphanumerics are not escape targets. -/
theorem isEscTarget_alnum {a : Nat} (h : isAlnumC a = true) : isEscTarget a = false := by
  simp only [isAlnumC, isAlphaC, isUpperC, isLowerC, isDigitC, Bool.or_eq_true,
    Bool.and_eq_true, decide_eq_true_eq] at h
  simp only [isEscTarget, Bool.or_eq_false_iff, beq_eq_false_iff_ne, ne_eq]
  omega

/-- Bounds of an alphanumeric codepoint. -/
theorem alnum_bounds {a : Nat} (h : isAlnumC a = true) :
    (48 ≤ a ∧ a ≤ 57) ∨ (65 ≤ a ∧ a ≤ 90) ∨ (97 ≤ a ∧ a ≤ 122) := by
  simp only [isAlnumC, isAlphaC, isUpperC, isLowerC, isDigitC, Bool.or_eq_true,
    Bool.and_eq_true, decide_eq_true_eq] at h
  tauto

/-- The fragment of an alphanumeric character is the character itself. -/
theorem itemPat_alnum {a : Nat} (h : isAlnumC a = true) : itemPat a = [a] := by
  have hb := alnum_bounds h
  have h32 : (a == 32) = false := by simp; omega
  have h39 : (a == 39) = false := by simp; omega
  have h8217 : (a == 8217) = false := by simp; omega
  simp [itemPat, h32, h39, h8217]

/-- escapeRe unfolds on a cons. -/
theorem escapeRe_cons (a : Nat) (t : List Nat) :
    escapeRe (a :: t) = (if isEscTarget a then [92, a] else [a]) ++ escapeRe t := rfl

/-- charReplace unfolds on a cons. -/
theorem charReplace_cons (c : Nat) (repl : List Nat) (a : Nat) (s : List Nat) :
    charReplace c repl (a :: s) = (if a == c then repl else [a]) ++ charReplace c repl s := rfl

/-- subSpec passes over any backslash-free block. -/
theorem subSpec_append_no92 :
    ∀ (x : List Nat), (∀ c ∈ x, c ≠ 92) → ∀ r, subSpec (x ++ r) = x ++ subSpec r := by
  intro x
  induction x with
  | nil => intro _ r; rfl
  | cons c xs ih =>
    intro hx r
    rw [List.cons_append, subSpec_cons c (hx c (List.mem_cons_self c xs)),
      ih (fun d hd => hx d (List.mem_cons_of_mem c hd)) r]
    rfl

/-- termPattern at its own fuel is the structural rewrite. -/
theorem termPattern_eq_subSpec (t : List Nat) :
    termPattern t =
      subSpec (charReplace 39 [91, 8217, 39, 93]
        (charReplace 8217 [91, 8217, 39, 93] (escapeRe t))) := by
  unfold termPattern
  exact replaceSub_eq_subSpec _ _ (by omega)

/-- For a term of word-shaped characters, the pattern text of
build_dictionary_regex is the concatenation of the per-character
fragments. -/
theorem termPattern_items : ∀ t : List Nat, t.all okTermChar = true →
    termPattern t = flatItems t := by
  intro t hall
  rw [termPattern_eq_subSpec]
  induction t with
  | nil => rfl
  | cons a t0 ih =>
    simp only [List.all_cons, Bool.and_eq_true] at hall
    obtain ⟨hahead, htail⟩ := hall
    have ihr := ih htail
    have hcases : isAlnumC a = true ∨ a = 32 ∨ a = 39 ∨ a = 8217 := by
      simp only [okTermChar, Bool.or_eq_true, beq_iff_eq] at hahead
      tauto
    rcases hcases with ha | rfl | rfl | rfl
    · have hb := alnum_bounds ha
      have hesc := isEscTarget_alnum ha
      have e1 : (a == 8217) = false := by simp; omega
      have e2 : (a == 39) = false := by simp; omega
      have h1 : escapeRe (a :: t0) = [a] ++ escapeRe t0 := by
        rw [escapeRe_cons]
        simp [hesc]
      have h2 : charReplace 8217 [91, 8217, 39, 93] ([a] ++ escapeRe t0) =
          [a] ++ charReplace 8217 [91, 8217, 39, 93] (escapeRe t0) := by
        simp [charReplace_cons, e1]
      have h3 : charReplace 39 [91, 8217, 39, 93]
            ([a] ++ charReplace 8217 [91, 8217, 39, 93] (escapeRe t0)) =
          [a] ++ charReplace 39 [91, 8217, 39, 93]
            (charReplace 8217 [91, 8217, 39, 93] (escapeRe t0)) := by
        simp [charReplace_cons, e2]
      rw [h1, h2, h3, subSpec_append_no92 [a] (by intro c hc; simp at hc; omega), ihr]
      simp [flatItems, itemPat_alnum ha]
    · have h1 : escapeRe (32 :: t0) = [92, 32] ++ escapeRe t0 := rfl
      have h2 : charReplace 8217 [91, 8217, 39, 93] ([92, 32] ++ escapeRe t0) =
          [92, 32] ++ charReplace 8217 [91, 8217, 39, 93] (escapeRe t0) := rfl
      have h3 : charReplace 39 [91, 8217, 39, 93]
            ([92, 32] ++ charReplace 8217 [91, 8217, 39, 93] (escapeRe t0)) =
          [92, 32] ++ charReplace 39 [91, 8217, 39, 93]
            (charReplace 8217 [91, 8217, 39, 93] (escapeRe t0)) := rfl
      rw [h1, h2, h3]
      simp only [List.cons_append, List.nil_append]
      rw [subSpec_pair, ihr]
      rfl
    · have h1 : escapeRe (39 :: t0) = [39] ++ escapeRe t0 := rfl
      have h2 : charReplace 8217 [91, 8217, 39, 93] ([39] ++ escapeRe t0) =
          [39] ++ charReplace 8217 [91, 8217, 39, 93] (escapeRe t0) := rfl
      have h3 : charReplace 39 [91, 8217, 39, 93]
            ([39] ++ charReplace 8217 [91, 8217, 39, 93] (escapeRe t0)) =
          [91, 8217, 39, 93] ++ charReplace 39 [91, 8217, 39, 93]
            (charReplace 8217 [91, 8217, 39, 93] (escapeRe t0)) := rfl
      rw [h1, h2, h3, subSpec_append_no92 [91, 8217, 39, 93] (by decide), ihr]
      rfl
    · have h1 : escapeRe (8217 :: t0) = [8217] ++ escapeRe t0 := rfl
      have h2 : charReplace 8217 [91, 8217, 39, 93] ([8217] ++ escapeRe t0) =
          [91, 8217, 39, 93] ++ charReplace 8217 [91, 8217, 39, 93] (escapeRe t0) := rfl
      have h3 : charReplace 39 [91, 8217, 39, 93]
            ([91, 8217, 39, 93] ++ charReplace 8217 [91, 8217, 39, 93] (escapeRe t0)) =
          [91, 8217, 91, 8217, 39, 93, 93] ++ charReplace 39 [91, 8217, 39, 93]
            (charReplace 8217 [91, 8217, 39, 93] (escapeRe t0)) := rfl
      rw [h1, h2, h3, subSpec_append_no92 [91, 8217, 91, 8217, 39, 93, 93] (by decide), ihr]
      rfl

/-- compilePat of the empty pattern at positive fuel. -/
theorem compilePat_nil (f : Nat) : compilePat (f + 1) [] = .eps := rfl

/-- compilePat consumes a whitespace-matcher fragment. -/
theorem compilePat_ws (f : Nat) (p : List Nat) :
    compilePat (f + 1) ([92, 115, 43] ++ p) = .seq (Re.plus isWsC) (compilePat f p) := rfl

/-- compilePat consumes the plain-apostrophe class fragment: its members
are the two apostrophes. -/
theorem compilePat_cls39 (f : Nat) (p : List Nat) :
    compilePat (f + 1) ([91, 8217, 39, 93] ++ p) =
      .seq (.ch (fun x => [8217, 39].contains x)) (compilePat f p) := rfl

/-- compilePat consumes the nested typographic-apostrophe class
fragment: under the nested-class union semantics its members are again
exactly the two apostrophes. -/
theorem compilePat_cls8217 (f : Nat) (p : List Nat) :
    compilePat (f + 1) ([91, 8217, 91, 8217, 39, 93, 93] ++ p) =
      .seq (.ch (fun x => [8217, 8217, 39].contains x)) (compilePat f p) := rfl

/-- compilePat consumes a plain character (one that is neither a
backslash nor an opening bracket) as a case-insensitive literal. -/
theorem compilePat_head (f c : Nat) (p : List Nat) (h92 : c ≠ 92) (h91 : c ≠ 91) :
    compilePat (f + 1) (c :: p) =
      .seq (.ch (fun x => foldLower x == foldLower c)) (compilePat f p) := by
  unfold compilePat
  split
  · omega
  · simp_all
  · simp_all
  · simp_all
  · simp_all
  · simp_all
  · simp_all
  · rename_i heq1 heq2
    obtain ⟨rfl, rfl⟩ := heq2
    injection heq1 with hf
    subst hf
    rw [compilePat.eq_def]

/-- A greedy class star succeeds whenever its continuation succeeds with
nothing consumed: the zero-consumption fallback is always tried last. -/
theorem starRun_base {p : Nat → Bool} {k : Option Nat → List Nat → Option (List Nat)}
    {prev : Option Nat} {s : List Nat} (h : ∀ pv, (k pv s).isSome = true) :
    (starRun p prev s k).isSome = true := by
  cases s with
  | nil => exact h prev
  | cons c rest =>
    unfold starRun
    by_cases hp : p c = true
    · simp only [hp, if_true]
      cases hin : starRun p (some c) rest k with
      | some r => simp
      | none => exact h prev
    · simp only [hp]
      simp only [Bool.false_eq_true, if_false]
      exact h prev

/-- A greedy class star succeeds whenever some leading run of class
characters can be consumed so that the continuation succeeds on the
remaining text, whatever previous character reaches it. -/
theorem starRun_exists {p : Nat → Bool} {k : Option Nat → List Nat → Option (List Nat)} :
    ∀ (r rest : List Nat) (prev : Option Nat),
      (∀ c ∈ r, p c = true) → (∀ pv, (k pv rest).isSome = true) →
      (starRun p prev (r ++ rest) k).isSome = true := by
  intro r
  induction r with
  | nil => intro rest prev _ hk; exact starRun_base hk
  | cons c rt ih =>
    intro rest prev hr hk
    have hc : p c = true := hr c (List.mem_cons_self c rt)
    rw [List.cons_append]
    unfold starRun
    simp only [hc, if_true]
    cases hin : starRun p (some c) (rt ++ rest) k with
    | some r2 => simp
    | none =>
      have := ih rest (some c) (fun d hd => hr d (List.mem_cons_of_mem c hd)) hk
      rw [hin] at this
      simp at this

/-- An alternation list succeeds when any of its members does. -/
theorem altList_mem {prev : Option Nat} {s : List Nat}
    {k : Option Nat → List Nat → Option (List Nat)} :
    ∀ (rs : List Re) (r : Re), r ∈ rs → (r.run prev s k).isSome = true →
      ((Re.altList rs).run prev s k).isSome = true := by
  intro rs
  induction rs with
  | nil => intro r hr; cases hr
  | cons x xs ih =>
    intro r hr hrun
    cases xs with
    | nil =>
      have : r = x := by simpa using hr
      subst this
      simpa [Re.altList] using hrun
    | cons y ys =>
      show ((Re.alt x (Re.altList (y :: ys))).run prev s k).isSome = true
      unfold Re.run
      cases hx : x.run prev s k with
      | some res => simp
      | none =>
        rcases List.mem_cons.mp hr with rfl | hmem
        · rw [hx] at hrun; simp at hrun
        · exact ih r hmem hrun

/-- Lowercase folding reflects alphanumerics. -/
theorem foldLower_alnum {a c : Nat} (ha : isAlnumC a = true) (hc : foldLower c = foldLower a) :
    isAlnumC c = true := by
  simp only [isAlnumC, isAlphaC, isUpperC, isLowerC, isDigitC, Bool.or_eq_true,
    Bool.and_eq_true, decide_eq_true_eq] at ha ⊢
  unfold foldLower at hc
  simp only [Bool.and_eq_true, decide_eq_true_eq] at hc
  split_ifs at hc <;> omega

/-- Alphanumerics are word characters. -/
theorem isWordC_of_alnum {c : Nat} (h : isAlnumC c = true) : isWordC c = true := by
  simp [isWordC, h]

/-- The last-character invariant of a non-empty remaining term does not
depend on the previously consumed character. -/
theorem lastAlnum_tail {a : Nat} {t : List Nat} {prev : Option Nat} (ht : t ≠ [])
    (h : lastAlnum (a :: t) prev) : ∀ pv, lastAlnum t pv := by
  intro pv
  unfold lastAlnum at *
  obtain ⟨b, t2, rfl⟩ := List.exists_cons_of_ne_nil ht
  rw [List.getLast?_cons_cons] at h
  cases hg : (b :: t2).getLast? with
  | some l => rw [hg] at h; simpa [hg] using h
  | none => simp [List.getLast?] at hg

/-- A singleton remaining term forces its character alphanumeric. -/
theorem lastAlnum_single {a : Nat} {prev : Option Nat} (h : lastAlnum [a] prev) :
    isAlnumC a = true := by
  unfold lastAlnum at h
  simpa using h

/-- Core of C5: the compiled fragment sequence of a word-shaped term
consumes any flexible variant of the term.  The continuation hypothesis
only has to succeed after an alphanumeric character, because the
invariant guarantees the last consumed character is alphanumeric. -/
theorem branch_run {t v : List Nat} (htv : TermVariant t v) :
    ∀ f : Nat, t.all okTermChar = true → t.length + 1 ≤ f →
    ∀ (w : List Nat) (k : Option Nat → List Nat → Option (List Nat)),
      (∀ c, isAlnumC c = true → (k (some c) w).isSome = true) →
    ∀ prev : Option Nat, lastAlnum t prev →
      ((compilePat f (flatItems t)).run prev (v ++ w) k).isSome = true := by
  induction htv with
  | nil =>
    intro f _ hf w k hk prev hla
    obtain ⟨f2, rfl⟩ : ∃ f2, f = f2 + 1 := ⟨f - 1, by omega⟩
    rw [show flatItems [] = [] from rfl, compilePat_nil]
    simp only [List.nil_append, Re.run]
    simp only [lastAlnum, List.getLast?] at hla
    cases prev with
    | none => exact hla.elim
    | some c => exact hk c hla
  | alnum ha hc htv2 ih =>
    rename_i a c t0 v0
    intro f hall hf w k hk prev hla
    simp only [List.all_cons, Bool.and_eq_true] at hall
    simp only [List.length_cons] at hf
    obtain ⟨f2, rfl⟩ : ∃ f2, f = f2 + 1 := ⟨f - 1, by omega⟩
    have hb := alnum_bounds ha
    rw [show flatItems (a :: t0) = itemPat a ++ flatItems t0 from rfl, itemPat_alnum ha,
      List.singleton_append, compilePat_head f2 a _ (by omega) (by omega)]
    simp only [Re.run, List.cons_append]
    simp only [hc, beq_self_eq_true, if_true]
    have hcal : isAlnumC c = true := foldLower_alnum ha hc
    refine ih f2 hall.2 (by omega) w k hk (some c) ?_
    cases t0 with
    | nil => simpa [lastAlnum, List.getLast?] using hcal
    | cons b t1 => exact lastAlnum_tail (by simp) hla (some c)
  | apos ha hcv htv2 ih =>
    rename_i a c t0 v0
    intro f hall hf w k hk prev hla
    simp only [List.all_cons, Bool.and_eq_true] at hall
    simp only [List.length_cons] at hf
    obtain ⟨f2, rfl⟩ : ∃ f2, f = f2 + 1 := ⟨f - 1, by omega⟩
    cases t0 with
    | nil =>
      have := lastAlnum_single hla
      rcases ha with rfl | rfl <;> simp [isAlnumC, isAlphaC, isUpperC, isLowerC, isDigitC] at this
    | cons b t1 =>
      have hnext := lastAlnum_tail (t := b :: t1) (by simp) hla (some c)
      have hrec := ih f2 hall.2 (by omega) w k hk (some c) hnext
      have hcc : ([8217, 39].contains c) = true := by
        rcases hcv with rfl | rfl <;> rfl
      have hcc2 : ([8217, 8217, 39].contains c) = true := by
        rcases hcv with rfl | rfl <;> rfl
      rcases ha with rfl | rfl
      · rw [show flatItems (39 :: b :: t1) = [91, 8217, 39, 93] ++ flatItems (b :: t1) from rfl,
          compilePat_cls39]
        simp only [Re.run, List.cons_append]
        simp only [hcc, if_true]
        exact hrec
      · rw [show flatItems (8217 :: b :: t1) = [91, 8217, 91, 8217, 39, 93, 93] ++ flatItems (b :: t1) from rfl,
          compilePat_cls8217]
        simp only [Re.run, List.cons_append]
        simp only [hcc2, if_true]
        exact hrec
  | space hr hws htv2 ih =>
    rename_i t0 v0 r
    intro f hall hf w k hk prev hla
    simp only [List.all_cons, Bool.and_eq_true] at hall
    simp only [List.length_cons] at hf
    obtain ⟨f2, rfl⟩ : ∃ f2, f = f2 + 1 := ⟨f - 1, by omega⟩
    cases t0 with
    | nil =>
      have := lastAlnum_single hla
      simp [isAlnumC, isAlphaC, isUpperC, isLowerC, isDigitC] at this
    | cons b t1 =>
      obtain ⟨rh, rt, rfl⟩ := List.exists_cons_of_ne_nil hr
      rw [show flatItems (32 :: b :: t1) = [92, 115, 43] ++ flatItems (b :: t1) from rfl,
        compilePat_ws]
      have hK : ∀ pv, ((compilePat f2 (flatItems (b :: t1))).run pv (v0 ++ w) k).isSome = true := by
        intro pv
        exact ih f2 hall.2 (by omega) w k hk pv (lastAlnum_tail (by simp) hla pv)
      simp only [Re.run, Re.plus, List.cons_append, List.append_assoc]
      have hrh : isWsC rh = true := hws rh (List.mem_cons_self rh rt)
      simp only [hrh, if_true]
      exact starRun_exists rt (v0 ++ w) (some rh) (fun d hd => hws d (List.mem_cons_of_mem rh hd)) hK

/-- Every term fragment is non-empty, so the fragment text is at least
as long as the term. -/
theorem flatItems_length : ∀ t : List Nat, t.length ≤ (flatItems t).length := by
  intro t
  induction t with
  | nil => simp [flatItems]
  | cons a t0 ih =>
    have : 1 ≤ (itemPat a).length := by
      unfold itemPat
      split_ifs <;> simp
    simp only [flatItems, List.length_cons, List.length_append]
    omega

/-- C5: for every term list built from defaults plus trimmed non-empty
overrides, the compiled dictionary pattern matches each word-shaped term
of the dictionary as a whole word in every flexible variant of the term:
case-insensitively, with each apostrophe of the term (plain or
typographic) matching either apostrophe in the text, and each internal
literal space matching any non-empty whitespace run.  The witness below
instantiates this at a configured term containing a typographic
apostrophe. -/
theorem claim_C5 : ∀ (defaults overrides : List (List Nat)) (term text : List Nat),
    term ∈ build_dictionary defaults overrides →
    okTerm term = true →
    TermVariant term text →
    ∃ r, build_dictionary_regex (build_dictionary defaults overrides) = some r ∧
      (Re.firstMatch r none text).isSome = true := by
  intro defaults overrides term text hmem hok htv
  have hne : (build_dictionary defaults overrides).isEmpty = false := by
    cases hdd : build_dictionary defaults overrides with
    | nil => rw [hdd] at hmem; cases hmem
    | cons x xs => rfl
  refine ⟨.seq .bnd (.seq (Re.altList ((build_dictionary defaults overrides).map (fun t =>
      compilePat ((termPattern t).length + 1) (termPattern t)))) .bnd), ?_, ?_⟩
  · unfold build_dictionary_regex
    rw [hne]
    rfl
  · obtain ⟨⟨hall, hhead⟩, hlast⟩ :
        (term.all okTermChar = true ∧
          (match term.head? with | some c => isAlnumC c | none => false) = true) ∧
        (match term.getLast? with | some c => isAlnumC c | none => false) = true := by
      simpa [okTerm, Bool.and_eq_true] using hok
    cases term with
    | nil => simp at hhead
    | cons a t0 =>
    have hahead : isAlnumC a = true := by simpa using hhead
    have hla : lastAlnum (a :: t0) none := by
      unfold lastAlnum
      cases hgl : (a :: t0).getLast? with
      | some l => rw [hgl] at hlast; simpa using hlast
      | none => simp at hgl
    have hmm : (compilePat ((termPattern (a :: t0)).length + 1) (termPattern (a :: t0))) ∈
        (build_dictionary defaults overrides).map (fun t =>
          compilePat ((termPattern t).length + 1) (termPattern t)) :=
      List.mem_map_of_mem _ hmem
    have hterm : termPattern (a :: t0) = flatItems (a :: t0) := termPattern_items _ hall
    -- the text starts with a word character
    have hhd : ∃ c v0, text = c :: v0 ∧ isAlnumC c = true := by
      cases htv with
      | alnum hca hcf htv2 => exact ⟨_, _, rfl, foldLower_alnum hahead hcf⟩
      | apos hca hcv htv2 =>
        rcases hca with rfl | rfl <;>
          simp [isAlnumC, isAlphaC, isUpperC, isLowerC, isDigitC] at hahead
      | space hr hws htv2 =>
        simp [isAlnumC, isAlphaC, isUpperC, isLowerC, isDigitC] at hahead
    obtain ⟨c, v0, rfl, hcal⟩ := hhd
    unfold Re.firstMatch
    simp only [Re.run]
    have hbd : atBoundary none (c :: v0) = true := by
      simp [atBoundary, isWordC_of_alnum hcal]
    rw [hbd]
    simp only [if_true]
    -- the alternation succeeds through the branch of our term
    refine altList_mem _ _ hmm ?_
    rw [hterm]
    have hrun := branch_run htv ((flatItems (a :: t0)).length + 1) hall
      (by have := flatItems_length (a :: t0); omega) []
      (fun p2 s2 => Re.run .bnd p2 s2 (fun _ rest => some rest))
      (fun d hd => by simp [Re.run, atBoundary, isWordC_of_alnum hd])
      none hla
    simpa using hrun

set_option maxRecDepth 20000 in
/-- C5 witness: the dictionary built from the default names plus the
configured term O-8217-Brien (typographic apostrophe) compiles, and its
pattern matches the lowercased plain-apostrophe variant o-39-brien of
that term. -/
theorem claim_C5_witness :
    ∃ r, build_dictionary_regex
        (build_dictionary DEFAULT_NAMES [str "O" ++ [8217] ++ str "Brien"]) = some r ∧
      (Re.firstMatch r none (str "o" ++ [39] ++ str "brien")).isSome = true :=
  claim_C5 DEFAULT_NAMES [str "O" ++ [8217] ++ str "Brien"]
    (str "O" ++ [8217] ++ str "Brien") (str "o" ++ [39] ++ str "brien")
    (by decide) (by decide)
    (by
      show TermVariant [79, 8217, 66, 114, 105, 101, 110] [111, 39, 98, 114, 105, 101, 110]
      exact TermVariant.alnum (by decide) (by decide)
        (TermVariant.apos (Or.inr rfl) (Or.inl rfl)
          (TermVariant.alnum (by decide) (by decide)
            (TermVariant.alnum (by decide) (by decide)
              (TermVariant.alnum (by decide) (by decide)
                (TermVariant.alnum (by decide) (by decide)
                  (TermVariant.alnum (by decide) (by decide)
                    TermVariant.nil)))))))
